import Mathlib

/-!
Verification of the WP Engine site-management CLI (kellenmace/wpe-site-management-cli).

The development shallowly embeds the parts of the program that the checked
properties are about:

* the tolerant account/site membership filters of `src/utils.js`
  (`fetchSitesByAccount`, `fetchInstallsBySite`, `createAuthHeader`);
* the keyboard-driven menu navigator `createMenu` and the raw text input
  reader `getTextInput` of the main module;
* the environment helpers `getExistingEnvironments`, `getAvailableEnvironments`,
  `allEnvironmentsExist` and the `addInstallFlow` of the main module;
* the screen-level behaviour of `main`: menu option construction for the
  install-select screen, the empty-list branches, the delete-install
  confirmation flow, the add-site flow, and the process exit codes.

JavaScript strings become `String`, possibly-undefined string fields become
`Option String`, and the field that may historically hold a bare id string or
a nested object becomes the inductive `JsStr`.  Asynchronous gateway calls
that may throw become `Except String` parameters; a flow that catches an
exception is embedded as a `match` on that parameter.
-/

namespace WpeCli

/-- A JavaScript value sitting in the `account` (resp. `site`) field of a
site (resp. install) record: it may be `undefined`, a bare id string, or an
object carrying an `id` property.  These are the three historical API shapes
that the membership filter in `src/utils.js` tolerates. -/
inductive JsStr where
  | undef : JsStr
  | str : String → JsStr
  | obj : String → JsStr
deriving DecidableEq

/-- JavaScript truthiness of a `JsStr` value: `undefined` is falsy, a string
is truthy unless it is empty, an object is always truthy. -/
def jsTruthy : JsStr → Bool
  | .undef => false
  | .str s => !(s == "")
  | .obj _ => true

/-- Reading the `id` property: only an object actually has one; on a bare
string (and on `undefined`, which the truthiness guard shields) the property
access yields `undefined`, modelled as `none`. -/
def jsGetId : JsStr → Option String
  | .obj i => some i
  | _ => none

/-- An account record: `{id, name}`. -/
structure AccountRec where
  id : String
  name : String
deriving DecidableEq

/-- A site record as the filter in `src/utils.js` sees it: the `account`
field may be absent, a bare id string, or a nested object; `accountId` is a
possibly-absent alternative foreign key. -/
structure SiteRec where
  id : String
  name : String
  account : JsStr
  accountId : Option String
deriving DecidableEq

/-- An install record: `environment` is one of the three environment
strings, `primary_domain` may be absent or empty (both falsy in JS), and the
`site` / `siteId` fields mirror the tolerant shapes of `SiteRec`. -/
structure InstallRec where
  id : String
  name : String
  environment : String
  primary_domain : Option String
  site : JsStr
  siteId : Option String
deriving DecidableEq

/-- The membership predicate inside `fetchSitesByAccount`
(src/utils.js lines 83-89):
`site.account === accountId || (site.account && site.account.id === accountId)
|| site.accountId === accountId`. -/
def siteMatchesAccount (accountId : String) (site : SiteRec) : Bool :=
  decide (site.account = JsStr.str accountId) ||
    (jsTruthy site.account && decide (jsGetId site.account = some accountId)) ||
    decide (site.accountId = some accountId)

/-- `fetchSitesByAccount` (src/utils.js lines 77-94): fetch all sites, then
filter by the tolerant membership predicate.  The full list stands in for
the network response. -/
def fetchSitesByAccount (accountId : String) (allSites : List SiteRec) : List SiteRec :=
  allSites.filter (siteMatchesAccount accountId)

/-- The membership predicate inside `fetchInstallsBySite`
(src/utils.js lines 129-134). -/
def installMatchesSite (siteId : String) (install : InstallRec) : Bool :=
  decide (install.site = JsStr.str siteId) ||
    (jsTruthy install.site && decide (jsGetId install.site = some siteId)) ||
    decide (install.siteId = some siteId)

/-- `fetchInstallsBySite` (src/utils.js lines 123-139). -/
def fetchInstallsBySite (siteId : String) (allInstalls : List InstallRec) : List InstallRec :=
  allInstalls.filter (installMatchesSite siteId)

/-- The two credential environment variables read at startup; `none` models
an unset variable. -/
structure EnvVars where
  userId : Option String
  password : Option String

/-- `createAuthHeader` (src/utils.js lines 13-26): each credential defaults
to the empty string, and if either is empty the process exits with code 1
before any request is made.  On success the function returns the header
built from the credential pair; the Base64 encoding of the pair is an
injective formatting step no claim depends on, so the model keeps the raw
pair. -/
def createAuthHeader (e : EnvVars) : Except Nat String :=
  let apiUserId := e.userId.getD ""
  let apiPassword := e.password.getD ""
  if apiUserId = "" || apiPassword = "" then
    Except.error 1
  else
    Except.ok ("Basic " ++ apiUserId ++ ":" ++ apiPassword)

/-- Key events the menu navigator distinguishes (src/unnamed/part_000
lines 679-699): arrow up, arrow down, return, escape; every other
non-interrupt key is ignored. -/
inductive MenuKey where
  | up : MenuKey
  | down : MenuKey
  | enter : MenuKey
  | escape : MenuKey
  | other : MenuKey
deriving DecidableEq

/-- One keypress of `createMenu`'s `handleKeypress` acting on the
highlighted index (src/unnamed/part_000 lines 681-686): up decrements only
when the index is positive, down increments only when the index is below
`maxIndex = options.length - 1`.  The index is an `Int` because the source
computes `maxIndex` as a possibly-negative JavaScript number. -/
def menuStep (optionCount : Nat) (idx : Int) (k : MenuKey) : Int :=
  match k with
  | .up => if idx > 0 then idx - 1 else idx
  | .down => if idx < (optionCount : Int) - 1 then idx + 1 else idx
  | _ => idx

/-- The highlighted index after a sequence of key events, starting from the
initial index 0 of `createMenu`. -/
def menuNavigate (optionCount : Nat) (keys : List MenuKey) : Int :=
  keys.foldl (menuStep optionCount) 0

/-- Which key resolved the menu promise. -/
inductive MenuResolve where
  | enter : MenuResolve
  | escape : MenuResolve
deriving DecidableEq

/-- Running `createMenu`'s keypress handler on a sequence of key events from
a given highlighted index: return resolves with the current index, escape
resolves with the sentinel `-1` (src/unnamed/part_000 lines 687-692), and
the navigation keys update the index.  `none` means the sequence ended
without resolving. -/
def runMenu (optionCount : Nat) : Int → List MenuKey → Option (MenuResolve × Int)
  | _, [] => none
  | idx, k :: ks =>
    match k with
    | .enter => some (MenuResolve.enter, idx)
    | .escape => some (MenuResolve.escape, -1)
    | .up => runMenu optionCount (menuStep optionCount idx MenuKey.up) ks
    | .down => runMenu optionCount (menuStep optionCount idx MenuKey.down) ks
    | .other => runMenu optionCount idx ks

/-- Key events the text input reader distinguishes (src/unnamed/part_000
lines 715-734): a printable character, backspace, return; other
non-interrupt keys are ignored. -/
inductive InputKey where
  | char : Char → InputKey
  | backspace : InputKey
  | enter : InputKey
  | other : InputKey
deriving DecidableEq

/-- The JavaScript expression `input.slice(0, -1)`: the string without its
last character. -/
def jsDropLastChar (s : String) : String :=
  String.mk s.data.dropLast

/-- `getTextInput` (src/unnamed/part_000 lines 704-737) run on a sequence of
key events from a given buffer: return commits and resolves with the buffer,
backspace removes the last character when the buffer is non-empty, a
character is appended, other keys are ignored.  `none` means the sequence
ended without resolving. -/
def getTextInput : String → List InputKey → Option String
  | _, [] => none
  | buf, k :: ks =>
    match k with
    | .enter => some buf
    | .backspace => getTextInput (if buf.length > 0 then jsDropLastChar buf else buf) ks
    | .char c => getTextInput (buf.push c) ks
    | .other => getTextInput buf ks

/-- The edit step the specification describes, stated on the character list
of the buffer: a character event appends that character, a backspace removes
the last character (a no-op on the empty buffer), anything else leaves the
buffer unchanged. -/
def specEdit (buf : List Char) : InputKey → List Char
  | .char c => buf ++ [c]
  | .backspace => buf.dropLast
  | _ => buf

/-- `ALL_ENVIRONMENTS` (src/unnamed/part_000 line 759). -/
def ALL_ENVIRONMENTS : List String :=
  ["production", "staging", "development"]

/-- `getExistingEnvironments` (src/unnamed/part_000 lines 761-763). -/
def getExistingEnvironments (installs : List InstallRec) : List String :=
  installs.map (fun install => install.environment)

/-- `getAvailableEnvironments` (src/unnamed/part_000 lines 765-768). -/
def getAvailableEnvironments (installs : List InstallRec) : List String :=
  (ALL_ENVIRONMENTS).filter (fun env => !((getExistingEnvironments installs).contains env))

/-- `allEnvironmentsExist` (src/unnamed/part_000 lines 770-773). -/
def allEnvironmentsExist (installs : List InstallRec) : Bool :=
  (ALL_ENVIRONMENTS).all (fun env => (getExistingEnvironments installs).contains env)

/-- The specification-side coverage predicate: installs covering all three
environment values exist. -/
def coversAllEnvironments (installs : List InstallRec) : Prop :=
  ∀ e ∈ ALL_ENVIRONMENTS, ∃ i ∈ installs, i.environment = e

instance (installs : List InstallRec) : Decidable (coversAllEnvironments installs) :=
  inferInstanceAs (Decidable (∀ e ∈ ALL_ENVIRONMENTS, ∃ i ∈ installs, i.environment = e))

/-- The JavaScript expression `install.primary_domain || "No domain"`:
an absent or empty domain (both falsy) is replaced by the fallback. -/
def domainOrFallback : Option String → String
  | none => "No domain"
  | some s => if s = "" then "No domain" else s

/-- The label of one install row in the install-select menu
(src/unnamed/part_000 lines 929-934). -/
def installOptionLabel (install : InstallRec) : String :=
  install.name ++ " (" ++ install.environment ++ ") - " ++
    domainOrFallback install.primary_domain

/-- The option list of the install-select menu for a non-empty install list
(src/unnamed/part_000 lines 929-937): the install labels, then
`+ Add install` only when not all environments exist, then the back
option. -/
def buildInstallOptions (installs : List InstallRec) : List String :=
  installs.map installOptionLabel ++
    (if allEnvironmentsExist installs then [] else ["+ Add install"]) ++
    ["← Back to site selection"]

/-- The fixed option list of the zero-installs screen
(src/unnamed/part_000 lines 905-909). -/
def emptyInstallOptions : List String :=
  ["+ Add install", "← Back to site selection", "Exit"]

/-- What a drill-down screen presents: a menu, a menu below an
informational message, or only a message followed by `waitForKeyPress` and
an automatic return to the parent screen. -/
inductive ScreenView where
  | menu : List String → ScreenView
  | menuWithMessage : String → List String → ScreenView
  | messageThenBack : String → ScreenView
deriving DecidableEq

/-- The selectable options a screen view offers; a message-only screen
offers none. -/
def offeredOptions : ScreenView → List String
  | .menu options => options
  | .menuWithMessage _ options => options
  | .messageThenBack _ => []

/-- The site-selection screen for a fetched site list
(src/unnamed/part_000 lines 853-866): with zero sites it shows a
`No sites found` message, waits for a key, and sets `backToAccounts`; with
sites it presents the site names plus `+ Add site` and the back option. -/
def siteSelectScreen (accountName : String) (sites : List SiteRec) : ScreenView :=
  if sites.length = 0 then
    ScreenView.messageThenBack ("No sites found for account: " ++ accountName)
  else
    ScreenView.menu (sites.map (fun site => site.name) ++
      ["+ Add site", "← Back to account selection"])

/-- The install-selection screen for a fetched install list
(src/unnamed/part_000 lines 898-942): with zero installs it shows a
`No installs found` message and still presents the fixed three-option menu;
with installs it presents `buildInstallOptions`. -/
def installSelectScreen (siteName : String) (installs : List InstallRec) : ScreenView :=
  if installs.length = 0 then
    ScreenView.menuWithMessage ("No installs found for site: " ++ siteName)
      emptyInstallOptions
  else
    ScreenView.menu (buildInstallOptions installs)

/-- The screens of the flow controller, plus the terminated-process state. -/
inductive Screen where
  | accountSelect : Screen
  | siteSelect : Screen
  | installSelect : Screen
  | installManage : Screen
  | exited : Nat → Screen
deriving DecidableEq

/-- Outcome of the delete-install confirmation flow. -/
structure DeleteFlowResult where
  deleteCalls : List String
  errorShown : Bool
  next : Screen
deriving DecidableEq

/-- The delete-install confirmation flow (src/unnamed/part_000 lines
980-1022), from the point where the typed confirmation has been read:
a mismatching confirmation shows an error and loops back to the
install-management screen without any gateway call; a matching confirmation
issues exactly one `deleteInstall(install.id)` call, returning to the
refreshed install-selection screen on success and to the
install-management screen with an error message on failure.  The `gateway`
parameter is the outcome `deleteInstall` would have. -/
def deleteConfirmFlow (install : InstallRec) (typed : String)
    (gateway : Except String Unit) : DeleteFlowResult :=
  if typed ≠ install.name then
    { deleteCalls := [], errorShown := true, next := Screen.installManage }
  else
    match gateway with
    | Except.ok _ =>
        { deleteCalls := [install.id], errorShown := false, next := Screen.installSelect }
    | Except.error _ =>
        { deleteCalls := [install.id], errorShown := true, next := Screen.installManage }

/-- Outcome of `addInstallFlow`: the attempted `createInstall` calls as
`(siteId, accountId, name, environment)` tuples, the environment choices the
flow offered (`none` when it rejected before showing the menu), whether an
install was added, whether an error message was shown, and the screen the
caller continues on. -/
structure AddInstallResult where
  createCalls : List (String × String × String × String)
  envChoices : Option (List String)
  added : Bool
  errorShown : Bool
  next : Screen
deriving DecidableEq

/-- `addInstallFlow` (src/unnamed/part_000 lines 785-822), from the point
where the name has been typed: with no available environment it shows
`All environments already exist for this site.` and returns without any
gateway call; otherwise it presents the available environments as a menu,
cancels on escape (`envMenuResult = -1`), and otherwise attempts exactly one
`createInstall` call, catching a gateway failure as an error message.  In
every case the caller's loop continues on the install-selection screen. -/
def addInstallFlow (siteId accountId : String) (installs : List InstallRec)
    (typedName : String) (envMenuResult : Int)
    (gateway : Except String Unit) : AddInstallResult :=
  let available := getAvailableEnvironments installs
  if available.length = 0 then
    { createCalls := [], envChoices := none, added := false,
      errorShown := true, next := Screen.installSelect }
  else if envMenuResult = -1 then
    { createCalls := [], envChoices := some available, added := false,
      errorShown := false, next := Screen.installSelect }
  else
    let environment := (available.get? envMenuResult.toNat).getD ""
    match gateway with
    | Except.ok _ =>
        { createCalls := [(siteId, accountId, typedName, environment)],
          envChoices := some available, added := true,
          errorShown := false, next := Screen.installSelect }
    | Except.error _ =>
        { createCalls := [(siteId, accountId, typedName, environment)],
          envChoices := some available, added := false,
          errorShown := true, next := Screen.installSelect }

/-- Outcome of the add-site sub-flow. -/
structure AddSiteResult where
  createCalls : List (String × String)
  errorShown : Bool
  next : Screen
deriving DecidableEq

/-- The add-site sub-flow (src/unnamed/part_000 lines 870-889), from the
point where the name has been typed: it attempts exactly one `createSite`
call; success and caught failure both continue the site-selection loop. -/
def addSiteFlow (accountId typedName : String)
    (gateway : Except String Unit) : AddSiteResult :=
  match gateway with
  | Except.ok _ =>
      { createCalls := [(accountId, typedName)], errorShown := false,
        next := Screen.siteSelect }
  | Except.error _ =>
      { createCalls := [(accountId, typedName)], errorShown := true,
        next := Screen.siteSelect }

/-- The normal quit paths of the process, each naming one `process.exit`
site (or a `break` that reaches one). -/
inductive QuitEvent where
  | exitMenuOption : QuitEvent
  | escapeAtAccountSelect : QuitEvent
  | interruptSignal : QuitEvent
  | ctrlCInMenu : QuitEvent
  | ctrlCInTextInput : QuitEvent
deriving DecidableEq

/-- The exit code of each normal quit path: selecting `Exit` sets `exitApp`
and falls through to `process.exit(0)` (src/unnamed/part_000 line 1032),
escape at the account screen breaks to the same exit, the `SIGINT` handler
exits 0 (line 1044), and the Ctrl+C branches of `createMenu` (line 696) and
`getTextInput` (line 718) exit 0. -/
def quitExitCode : QuitEvent → Nat
  | .exitMenuOption => 0
  | .escapeAtAccountSelect => 0
  | .interruptSignal => 0
  | .ctrlCInMenu => 0
  | .ctrlCInTextInput => 0

/-- The startup of `main` (src/unnamed/part_000 lines 826-845 with the
outer catch at lines 1033-1037): missing credentials exit 1 inside
`createAuthHeader` before any request; a `fetchAccounts` failure propagates
to the outer catch, which exits 1; an empty account list exits 1
(lines 833-839).  Otherwise the account list reaches the first menu. -/
def appStartup (e : EnvVars)
    (accountsFetch : Except String (List AccountRec)) : Except Nat (List AccountRec) :=
  match createAuthHeader e with
  | Except.error code => Except.error code
  | Except.ok _ =>
      match accountsFetch with
      | Except.error _ => Except.error 1
      | Except.ok accounts =>
          if accounts.length = 0 then Except.error 1 else Except.ok accounts

/-- The end of `main` (src/unnamed/part_000 lines 1030-1037): normal
completion of the outer loop exits 0, an uncaught error reaching the outer
catch exits 1. -/
def mainLoopExit : Option String → Nat
  | none => 0
  | some _ => 1

/-! ### Helper lemmas about the menu navigator -/

lemma menuStep_bounds (n : Nat) (idx : Int) (k : MenuKey)
    (h0 : 0 ≤ idx) (h1 : idx ≤ (n : Int) - 1) :
    0 ≤ menuStep n idx k ∧ menuStep n idx k ≤ (n : Int) - 1 := by
  cases k <;> simp only [menuStep] <;>
    first
      | (split <;> omega)
      | omega

lemma menuNavigate_bounds_aux (n : Nat) (keys : List MenuKey) :
    ∀ idx : Int, 0 ≤ idx → idx ≤ (n : Int) - 1 →
      0 ≤ keys.foldl (menuStep n) idx ∧ keys.foldl (menuStep n) idx ≤ (n : Int) - 1 := by
  induction keys with
  | nil => intro idx h0 h1; exact ⟨h0, h1⟩
  | cons k ks ih =>
      intro idx h0 h1
      have hb := menuStep_bounds n idx k h0 h1
      simpa [List.foldl_cons] using ih (menuStep n idx k) hb.1 hb.2

lemma runMenu_resolve (n : Nat) (keys : List MenuKey) :
    ∀ idx : Int, 0 ≤ idx → idx ≤ (n : Int) - 1 →
      ∀ r v, runMenu n idx keys = some (r, v) →
        (r = MenuResolve.escape → v = -1) ∧
        (r = MenuResolve.enter → 0 ≤ v ∧ v ≤ (n : Int) - 1) := by
  induction keys with
  | nil => intro idx h0 h1 r v h; simp [runMenu] at h
  | cons k ks ih =>
      intro idx h0 h1 r v h
      cases k with
      | enter =>
          simp only [runMenu] at h
          rcases Option.some.inj h with hrw
          rcases Prod.mk.injEq .. ▸ hrw with ⟨hr, hv⟩
          refine ⟨fun hc => absurd (hr ▸ hc) (by decide), fun _ => ?_⟩
          exact hv ▸ ⟨h0, h1⟩
      | escape =>
          simp only [runMenu] at h
          rcases Option.some.inj h with hrw
          rcases Prod.mk.injEq .. ▸ hrw with ⟨hr, hv⟩
          refine ⟨fun _ => hv ▸ rfl, fun hc => absurd (hr ▸ hc) (by decide)⟩
      | up =>
          have hb := menuStep_bounds n idx MenuKey.up h0 h1
          exact ih (menuStep n idx MenuKey.up) hb.1 hb.2 r v (by simpa [runMenu] using h)
      | down =>
          have hb := menuStep_bounds n idx MenuKey.down h0 h1
          exact ih (menuStep n idx MenuKey.down) hb.1 hb.2 r v (by simpa [runMenu] using h)
      | other =>
          exact ih idx h0 h1 r v (by simpa [runMenu] using h)

/-- C3: for every non-empty menu option list and every finite sequence of key
events applied by `createMenu`'s handler starting at highlighted index 0, the
highlighted index stays within `[0, optionCount - 1]`; an up event decrements
but floors at 0 and a down event increments but ceilings at the last index,
so neither wraps around. -/
theorem menu_highlight_clamped (n : Nat) (h : 1 ≤ n) :
    (∀ keys : List MenuKey,
        0 ≤ menuNavigate n keys ∧ menuNavigate n keys ≤ (n : Int) - 1) ∧
    (∀ idx : Int, 0 ≤ idx → idx ≤ (n : Int) - 1 →
        menuStep n idx MenuKey.up = max (idx - 1) 0 ∧
        menuStep n idx MenuKey.down = min (idx + 1) ((n : Int) - 1)) := by
  constructor
  · intro keys
    exact menuNavigate_bounds_aux n keys 0 le_rfl (by omega)
  · intro idx h0 h1
    constructor
    · simp only [menuStep]
      split
      · rw [max_eq_left (by omega : (0 : Int) ≤ idx - 1)]
      · rw [max_eq_right (by omega : idx - 1 ≤ (0 : Int))]
        omega
    · simp only [menuStep]
      split
      · rw [min_eq_left (by omega : idx + 1 ≤ (n : Int) - 1)]
      · rw [min_eq_right (by omega : (n : Int) - 1 ≤ idx + 1)]
        omega

theorem menu_highlight_clamped_witness :
    (0 ≤ menuNavigate 3 [MenuKey.down, MenuKey.down, MenuKey.down, MenuKey.up] ∧
      menuNavigate 3 [MenuKey.down, MenuKey.down, MenuKey.down, MenuKey.up] ≤ (3 : Int) - 1) ∧
    menuNavigate 3 [MenuKey.down, MenuKey.down, MenuKey.down, MenuKey.up] = 1 :=
  ⟨(menu_highlight_clamped 3 (by decide)).1
      [MenuKey.down, MenuKey.down, MenuKey.down, MenuKey.up], by decide⟩

/-- C4: for every non-empty option list (length 1 included), the value
`createMenu` resolves with on escape is the sentinel `-1`, distinct from
every valid selectable index `0 .. optionCount - 1` and from every value an
enter key can resolve with for that list. -/
theorem menu_back_sentinel_distinct (n : Nat) (h : 1 ≤ n) :
    (∀ (keys : List MenuKey) (v : Int),
        runMenu n 0 keys = some (MenuResolve.escape, v) →
          v = -1 ∧ ∀ i : Int, 0 ≤ i → i ≤ (n : Int) - 1 → v ≠ i) ∧
    (∀ (keys : List MenuKey) (v : Int),
        runMenu n 0 keys = some (MenuResolve.enter, v) →
          0 ≤ v ∧ v ≤ (n : Int) - 1 ∧ v ≠ -1) := by
  constructor
  · intro keys v hrun
    have hr := runMenu_resolve n keys 0 le_rfl (by omega) MenuResolve.escape v hrun
    have hv : v = -1 := hr.1 rfl
    exact ⟨hv, fun i hi0 _ => by omega⟩
  · intro keys v hrun
    have hr := runMenu_resolve n keys 0 le_rfl (by omega) MenuResolve.enter v hrun
    have hv := hr.2 rfl
    exact ⟨hv.1, hv.2, by omega⟩

theorem menu_back_sentinel_distinct_witness :
    runMenu 1 0 [MenuKey.escape] = some (MenuResolve.escape, -1) ∧
    ((-1 : Int) = -1 ∧ ∀ i : Int, 0 ≤ i → i ≤ (1 : Int) - 1 → (-1 : Int) ≠ i) :=
  ⟨rfl, (menu_back_sentinel_distinct 1 (by decide)).1 [MenuKey.escape] (-1) rfl⟩

/-! ### Helper lemmas about the text input reader -/

lemma backspace_data (buf : String) :
    (if buf.length > 0 then jsDropLastChar buf else buf).data = buf.data.dropLast := by
  split
  · rfl
  · rename_i hlen
    have hnil : buf.data = [] := by
      have : buf.data.length = 0 := Nat.eq_zero_of_not_pos hlen
      exact List.eq_nil_of_length_eq_zero this
    simp [hnil]

lemma getTextInput_resolves (post : List InputKey) :
    ∀ (pre : List InputKey) (buf : String), (∀ e ∈ pre, e ≠ InputKey.enter) →
      getTextInput buf (pre ++ InputKey.enter :: post) =
        some (String.mk (pre.foldl specEdit buf.data)) := by
  intro pre
  induction pre with
  | nil => intro buf _; rfl
  | cons k ks ih =>
      intro buf hne
      have hks : ∀ e ∈ ks, e ≠ InputKey.enter := fun e he => hne e (List.mem_cons_of_mem k he)
      cases k with
      | enter => exact absurd rfl (hne InputKey.enter (List.mem_cons_self _ _))
      | backspace =>
          have h2 := ih (if buf.length > 0 then jsDropLastChar buf else buf) hks
          rw [backspace_data] at h2
          simpa [getTextInput, List.foldl_cons, specEdit] using h2
      | char c =>
          have h2 := ih (buf.push c) hks
          rw [String.data_push] at h2
          simpa [getTextInput, List.foldl_cons, specEdit] using h2
      | other =>
          have h2 := ih buf hks
          simpa [getTextInput, List.foldl_cons, specEdit] using h2

/-- C9: for every finite sequence of key events ending in the first enter,
the string `getTextInput` resolves with equals the left fold of the events
before that enter over the empty buffer, where a character event appends the
character and a backspace removes the last character (a no-op on the empty
buffer). -/
theorem text_input_fold (pre post : List InputKey)
    (h : ∀ e ∈ pre, e ≠ InputKey.enter) :
    getTextInput "" (pre ++ InputKey.enter :: post) =
      some (String.mk (pre.foldl specEdit [])) := by
  simpa using getTextInput_resolves post pre "" h

theorem text_input_fold_witness :
    getTextInput ""
        ([InputKey.char (Char.ofNat 97), InputKey.char (Char.ofNat 98), InputKey.backspace,
          InputKey.backspace, InputKey.backspace, InputKey.char (Char.ofNat 99)] ++
          InputKey.enter :: []) =
      some (String.mk
        ([InputKey.char (Char.ofNat 97), InputKey.char (Char.ofNat 98), InputKey.backspace,
          InputKey.backspace, InputKey.backspace, InputKey.char (Char.ofNat 99)].foldl
          specEdit [])) ∧
    String.mk
        ([InputKey.char (Char.ofNat 97), InputKey.char (Char.ofNat 98), InputKey.backspace,
          InputKey.backspace, InputKey.backspace, InputKey.char (Char.ofNat 99)].foldl
          specEdit []) = "c" :=
  ⟨text_input_fold _ _ (by decide), by decide⟩

/-! ### The delete-install confirmation flow -/

/-- C1: in the delete-install confirmation flow, a typed confirmation that
differs from the selected install's exact name makes no `deleteInstall`
call and loops back to the install-management screen with an error message,
while the exact name makes exactly one `deleteInstall` call carrying that
install's id. -/
theorem delete_confirmation_guard (install : InstallRec) (typed : String)
    (gateway : Except String Unit) :
    (typed ≠ install.name →
        deleteConfirmFlow install typed gateway =
          { deleteCalls := [], errorShown := true, next := Screen.installManage }) ∧
    (typed = install.name →
        (deleteConfirmFlow install typed gateway).deleteCalls = [install.id]) := by
  constructor
  · intro hne
    simp [deleteConfirmFlow, hne]
  · intro heq
    subst heq
    cases gateway <;> simp [deleteConfirmFlow]

/-- A sample install record used to instantiate flow theorems. -/
def sampleInstall : InstallRec :=
  { id := "i1", name := "prod-env", environment := "production",
    primary_domain := none, site := JsStr.str "s1", siteId := none }

theorem delete_confirmation_guard_witness :
    deleteConfirmFlow sampleInstall "prod-env-typo" (Except.ok ()) =
      { deleteCalls := [], errorShown := true, next := Screen.installManage } ∧
    (deleteConfirmFlow sampleInstall "prod-env" (Except.ok ())).deleteCalls = ["i1"] :=
  ⟨(delete_confirmation_guard sampleInstall "prod-env-typo" (Except.ok ())).1 (by decide),
   (delete_confirmation_guard sampleInstall "prod-env" (Except.ok ())).2 rfl⟩

/-! ### The tolerant membership filters -/

lemma siteMatches_iff (accountId : String) (site : SiteRec) :
    siteMatchesAccount accountId site = true ↔
      (site.account = JsStr.str accountId ∨ site.account = JsStr.obj accountId ∨
        site.accountId = some accountId) := by
  cases hsa : site.account with
  | undef => simp [siteMatchesAccount, jsTruthy, jsGetId, hsa]
  | str s => simp [siteMatchesAccount, jsTruthy, jsGetId, hsa]
  | obj s => simp [siteMatchesAccount, jsTruthy, jsGetId, hsa]

lemma installMatches_iff (siteId : String) (install : InstallRec) :
    installMatchesSite siteId install = true ↔
      (install.site = JsStr.str siteId ∨ install.site = JsStr.obj siteId ∨
        install.siteId = some siteId) := by
  cases hsa : install.site with
  | undef => simp [installMatchesSite, jsTruthy, jsGetId, hsa]
  | str s => simp [installMatchesSite, jsTruthy, jsGetId, hsa]
  | obj s => simp [installMatchesSite, jsTruthy, jsGetId, hsa]

/-- C5: the site/install membership filter accepts a child record against a
parent id under exactly the three historical record shapes — a bare id
string in the `account` (resp. `site`) field, a nested object whose `id`
matches, or a matching `accountId` (resp. `siteId`) foreign key — and
excludes every record matching under none of the three, identically for
`fetchSitesByAccount` and `fetchInstallsBySite`. -/
theorem membership_filter_shapes (idv : String) :
    (∀ (sites : List SiteRec) (s : SiteRec),
        s ∈ fetchSitesByAccount idv sites ↔
          s ∈ sites ∧ (s.account = JsStr.str idv ∨ s.account = JsStr.obj idv ∨
            s.accountId = some idv)) ∧
    (∀ (installs : List InstallRec) (i : InstallRec),
        i ∈ fetchInstallsBySite idv installs ↔
          i ∈ installs ∧ (i.site = JsStr.str idv ∨ i.site = JsStr.obj idv ∨
            i.siteId = some idv)) := by
  constructor
  · intro sites s
    simp [fetchSitesByAccount, List.mem_filter, siteMatches_iff]
  · intro installs i
    simp [fetchInstallsBySite, List.mem_filter, installMatches_iff]

/-! ### Environment helpers and per-site environment coverage -/

lemma allEnvironmentsExist_iff (installs : List InstallRec) :
    allEnvironmentsExist installs = true ↔ coversAllEnvironments installs := by
  simp [allEnvironmentsExist, coversAllEnvironments, getExistingEnvironments,
    List.all_eq_true, List.mem_map]

lemma available_nil_iff (installs : List InstallRec) :
    getAvailableEnvironments installs = [] ↔ allEnvironmentsExist installs = true := by
  simp [getAvailableEnvironments, allEnvironmentsExist, getExistingEnvironments,
    List.filter_eq_nil_iff, List.all_eq_true]

lemma mem_available_iff (installs : List InstallRec) (e : String) :
    e ∈ getAvailableEnvironments installs ↔
      (e ∈ ALL_ENVIRONMENTS ∧ ∀ i ∈ installs, i.environment ≠ e) := by
  simp [getAvailableEnvironments, getExistingEnvironments, List.mem_filter,
    List.mem_map]

/-- Every install row label contains a parenthesis, so it can never equal
the literal `+ Add install` option. -/
lemma installOptionLabel_ne (i : InstallRec) :
    installOptionLabel i ≠ "+ Add install" := by
  intro h
  have hp : Char.ofNat 40 ∈ " (".data := by decide
  have hmem : Char.ofNat 40 ∈ (installOptionLabel i).data := by
    simp only [installOptionLabel, String.data_append, List.mem_append]
    tauto
  rw [h] at hmem
  exact absurd hmem (by decide)

lemma add_option_mem (installs : List InstallRec) :
    ("+ Add install" ∈ buildInstallOptions installs) ↔
      allEnvironmentsExist installs = false := by
  unfold buildInstallOptions
  cases hA : allEnvironmentsExist installs with
  | true =>
      constructor
      · intro hmem
        exfalso
        rcases List.mem_append.mp hmem with h1 | h2
        · rcases List.mem_append.mp h1 with h3 | h4
          · rcases List.mem_map.mp h3 with ⟨i, _, hlab⟩
            exact installOptionLabel_ne i hlab
          · rw [if_pos (by decide)] at h4
            exact absurd h4 (by decide)
        · exact absurd h2 (by decide)
      · intro h
        exact absurd h (by decide)
  | false =>
      constructor
      · intro _; rfl
      · intro _
        refine List.mem_append.mpr (Or.inl (List.mem_append.mpr (Or.inr ?_)))
        rw [if_neg (by decide)]
        exact List.mem_singleton.mpr rfl

/-- C2: the `+ Add install` option is omitted from the install-select menu
exactly when installs covering all three environment values exist; the
add-install sub-flow offers as environment choices exactly the environment
values not already present; and when none remain the flow is rejected with
a message, offering no environment menu and making no `createInstall`
call. -/
theorem add_install_environment_gating (installs : List InstallRec)
    (siteId accountId typedName : String) (envMenuResult : Int)
    (gateway : Except String Unit) :
    (("+ Add install" ∈ buildInstallOptions installs) ↔ ¬ coversAllEnvironments installs) ∧
    (∀ e, e ∈ getAvailableEnvironments installs ↔
        (e ∈ ALL_ENVIRONMENTS ∧ ∀ i ∈ installs, i.environment ≠ e)) ∧
    (¬ coversAllEnvironments installs →
        (addInstallFlow siteId accountId installs typedName envMenuResult gateway).envChoices =
          some (getAvailableEnvironments installs)) ∧
    (coversAllEnvironments installs →
        (addInstallFlow siteId accountId installs typedName envMenuResult gateway).createCalls = [] ∧
        (addInstallFlow siteId accountId installs typedName envMenuResult gateway).envChoices = none ∧
        (addInstallFlow siteId accountId installs typedName envMenuResult gateway).errorShown = true) := by
  refine ⟨?_, mem_available_iff installs, ?_, ?_⟩
  · rw [add_option_mem]
    rw [Bool.eq_false_iff]
    exact not_congr (allEnvironmentsExist_iff installs)
  · intro h
    have hne : getAvailableEnvironments installs ≠ [] := by
      intro hnil
      exact h ((allEnvironmentsExist_iff installs).mp ((available_nil_iff installs).mp hnil))
    have hlen : ¬ (getAvailableEnvironments installs).length = 0 := by
      simpa [List.length_eq_zero] using hne
    simp only [addInstallFlow]
    rw [if_neg hlen]
    split
    · rfl
    · cases gateway <;> rfl
  · intro h
    have hnil : getAvailableEnvironments installs = [] :=
      (available_nil_iff installs).mpr ((allEnvironmentsExist_iff installs).mpr h)
    simp [addInstallFlow, hnil]

/-- Two installs covering production and staging only. -/
def twoEnvInstalls : List InstallRec :=
  [{ id := "i1", name := "a", environment := "production",
     primary_domain := none, site := JsStr.str "s1", siteId := none },
   { id := "i2", name := "b", environment := "staging",
     primary_domain := none, site := JsStr.str "s1", siteId := none }]

/-- Three installs covering all three environments. -/
def threeEnvInstalls : List InstallRec :=
  twoEnvInstalls ++
    [{ id := "i3", name := "c", environment := "development",
       primary_domain := none, site := JsStr.str "s1", siteId := none }]

theorem add_install_environment_gating_witness :
    ((addInstallFlow "s1" "a1" threeEnvInstalls "n" 0 (Except.ok ())).createCalls = [] ∧
     (addInstallFlow "s1" "a1" threeEnvInstalls "n" 0 (Except.ok ())).envChoices = none ∧
     (addInstallFlow "s1" "a1" threeEnvInstalls "n" 0 (Except.ok ())).errorShown = true) ∧
    (addInstallFlow "s1" "a1" twoEnvInstalls "n" 0 (Except.ok ())).envChoices =
      some ["development"] :=
  ⟨(add_install_environment_gating threeEnvInstalls "s1" "a1" "n" 0 (Except.ok ())).2.2.2
      (by decide),
   by
     have h :=
       (add_install_environment_gating twoEnvInstalls "s1" "a1" "n" 0 (Except.ok ())).2.2.1
         (by decide)
     rw [h]
     decide⟩

/-- C10: `allEnvironmentsExist` returns true exactly when
`getAvailableEnvironments` returns the empty list, so the install-select
menu includes `+ Add install` exactly when the add-install sub-flow would
offer at least one environment choice. -/
theorem env_gate_agreement (installs : List InstallRec) :
    (allEnvironmentsExist installs = true ↔ getAvailableEnvironments installs = []) ∧
    (("+ Add install" ∈ buildInstallOptions installs) ↔
      getAvailableEnvironments installs ≠ []) := by
  constructor
  · exact (available_nil_iff installs).symm
  · rw [add_option_mem, Bool.eq_false_iff]
    exact not_congr (available_nil_iff installs).symm

/-! ### Empty-list screens -/

/-- C6 counterexample: when the drill-down into an account yields zero
sites, the resulting screen presents no menu at all — in particular neither
a `Back` nor an `Exit` option — contradicting the claim that every
zero-children drill-down screen still offers those options.  The screen
shows a message, waits for a keypress and returns to account selection. -/
theorem empty_sites_screen_offers_no_options :
    offeredOptions (siteSelectScreen "Acme" []) = [] ∧
    ¬ ("Exit" ∈ offeredOptions (siteSelectScreen "Acme" [])) ∧
    ¬ ("← Back to account selection" ∈ offeredOptions (siteSelectScreen "Acme" [])) ∧
    ¬ (∃ options, siteSelectScreen "Acme" [] = ScreenView.menu options) := by
  refine ⟨rfl, by decide, by decide, ?_⟩
  rintro ⟨options, h⟩
  exact ScreenView.noConfusion h

/-- C6 amended: with zero installs for the selected site, the screen still
offers exactly `+ Add install`, `← Back to site selection`, `Exit` in that
fixed order below the informational message; with zero sites for the
selected account, the screen shows only a `No sites found` message, waits
for a keypress, and returns to account selection, offering no options. -/
theorem empty_list_screens (siteName accountName : String) :
    installSelectScreen siteName [] =
      ScreenView.menuWithMessage ("No installs found for site: " ++ siteName)
        ["+ Add install", "← Back to site selection", "Exit"] ∧
    siteSelectScreen accountName [] =
      ScreenView.messageThenBack ("No sites found for account: " ++ accountName) ∧
    offeredOptions (siteSelectScreen accountName []) = [] :=
  ⟨rfl, rfl, rfl⟩

/-! ### Gateway failures inside flows -/

/-- C7: a gateway failure raised during a create-site, create-install or
delete-install operation is caught at the flow step that issued the call;
the flow shows an error message and continues on the screen it started
from, never reaching a terminated-process state. -/
theorem gateway_failure_contained (m : String)
    (siteId accountId typedName : String) (installs : List InstallRec)
    (envMenuResult : Int) (install : InstallRec) (typed : String)
    (h1 : getAvailableEnvironments installs ≠ [])
    (h2 : envMenuResult ≠ -1)
    (h3 : typed = install.name) :
    ((addInstallFlow siteId accountId installs typedName envMenuResult (Except.error m)).added
        = false ∧
     (addInstallFlow siteId accountId installs typedName envMenuResult
        (Except.error m)).errorShown = true ∧
     (addInstallFlow siteId accountId installs typedName envMenuResult (Except.error m)).next
        = Screen.installSelect ∧
     ∀ c, (addInstallFlow siteId accountId installs typedName envMenuResult
        (Except.error m)).next ≠ Screen.exited c) ∧
    (addSiteFlow accountId typedName (Except.error m) =
        { createCalls := [(accountId, typedName)], errorShown := true,
          next := Screen.siteSelect } ∧
     ∀ c, (addSiteFlow accountId typedName (Except.error m)).next ≠ Screen.exited c) ∧
    (deleteConfirmFlow install typed (Except.error m) =
        { deleteCalls := [install.id], errorShown := true,
          next := Screen.installManage } ∧
     ∀ c, (deleteConfirmFlow install typed (Except.error m)).next ≠ Screen.exited c) := by
  have hlen : ¬ (getAvailableEnvironments installs).length = 0 := by
    simpa [List.length_eq_zero] using h1
  subst h3
  refine ⟨?_, ⟨rfl, fun c => by simp [addSiteFlow]⟩, ?_⟩
  · have hflow : addInstallFlow siteId accountId installs typedName envMenuResult
        (Except.error m) =
        { createCalls := [(siteId, accountId, typedName,
            ((getAvailableEnvironments installs).get? envMenuResult.toNat).getD "")],
          envChoices := some (getAvailableEnvironments installs), added := false,
          errorShown := true, next := Screen.installSelect } := by
      simp only [addInstallFlow]
      rw [if_neg hlen, if_neg h2]
    rw [hflow]
    exact ⟨rfl, rfl, rfl, fun c => by simp⟩
  · have hflow : deleteConfirmFlow install install.name (Except.error m) =
        { deleteCalls := [install.id], errorShown := true,
          next := Screen.installManage } := by
      simp [deleteConfirmFlow]
    rw [hflow]
    exact ⟨rfl, fun c => by simp⟩

theorem gateway_failure_contained_witness :
    (addInstallFlow "s1" "a1" twoEnvInstalls "n" 0 (Except.error "boom")).added = false ∧
    (addInstallFlow "s1" "a1" twoEnvInstalls "n" 0 (Except.error "boom")).next =
      Screen.installSelect ∧
    deleteConfirmFlow sampleInstall "prod-env" (Except.error "boom") =
      { deleteCalls := ["i1"], errorShown := true, next := Screen.installManage } := by
  have h := gateway_failure_contained "boom" "s1" "a1" "n" twoEnvInstalls 0
    sampleInstall "prod-env" (by decide) (by decide) rfl
  exact ⟨h.1.1, h.1.2.2.1, h.2.2.1⟩

/-! ### Process exit codes -/

lemma createAuthHeader_error (e : EnvVars) (c : Nat)
    (h : createAuthHeader e = Except.error c) : c = 1 := by
  unfold createAuthHeader at h
  dsimp only at h
  split at h
  · exact (Except.error.inj h).symm
  · exact Except.noConfusion h

/-- C8: every normal quit path exits with code 0, and every fatal startup
condition — missing credentials, zero accounts, or an error propagating to
the outermost catch — exits with code 1. -/
theorem process_exit_codes :
    (∀ q : QuitEvent, quitExitCode q = 0) ∧
    mainLoopExit none = 0 ∧
    (∀ m : String, mainLoopExit (some m) = 1) ∧
    (∀ e : EnvVars, (e.userId.getD "" = "" ∨ e.password.getD "" = "") →
        createAuthHeader e = Except.error 1) ∧
    (∀ e : EnvVars, appStartup e (Except.ok []) = Except.error 1) ∧
    (∀ (e : EnvVars) (m : String), appStartup e (Except.error m) = Except.error 1) ∧
    (∀ (e : EnvVars) (fetch : Except String (List AccountRec)) (c : Nat),
        appStartup e fetch = Except.error c → c = 1) := by
  refine ⟨fun q => by cases q <;> rfl, rfl, fun m => rfl, ?_, ?_, ?_, ?_⟩
  · intro e h
    unfold createAuthHeader
    rw [if_pos]
    rcases h with h | h
    · simp [h]
    · simp [h]
  · intro e
    unfold appStartup
    cases hc : createAuthHeader e with
    | error c => rw [createAuthHeader_error e c hc]
    | ok v => simp
  · intro e m
    unfold appStartup
    cases hc : createAuthHeader e with
    | error c => rw [createAuthHeader_error e c hc]
    | ok v => rfl
  · intro e fetch c h
    unfold appStartup at h
    split at h
    · rename_i code hc
      rw [← Except.error.inj h]
      exact createAuthHeader_error e code hc
    · split at h
      · exact (Except.error.inj h).symm
      · split at h
        · exact (Except.error.inj h).symm
        · exact Except.noConfusion h

theorem process_exit_codes_witness :
    quitExitCode QuitEvent.interruptSignal = 0 ∧
    createAuthHeader { userId := none, password := some "pw" } = Except.error 1 ∧
    appStartup { userId := some "u", password := some "pw" } (Except.ok []) =
      Except.error 1 :=
  ⟨process_exit_codes.1 QuitEvent.interruptSignal,
   process_exit_codes.2.2.2.1 { userId := none, password := some "pw" } (Or.inl rfl),
   process_exit_codes.2.2.2.2.1 { userId := some "u", password := some "pw" }⟩

end WpeCli

